import Mathlib

/-!
Verification of the AQR (Assist Quality Rating) scoring engine.

The definitions below are shallow embeddings of the Python functions in
`AQR_CLI_DB.py`, `AQR_COMMAND_LINE.py` and `AQR.py`.  Machine floats are
modelled as exact rationals; Python exceptions (KeyError, TypeError,
StatisticsError, IndexError) are modelled by `Option` results (`none` =
the call raises).  Python dicts keyed by strings are modelled as
association lists looked up with `alookup`.
-/

/-- Association-list lookup, modelling Python `dict[k]` / `dict.get(k)`:
returns the value of the first matching key. -/
def alookup {α β : Type} [DecidableEq α] (k : α) : List (α × β) → Option β
  | [] => none
  | (k', v) :: rest => if k = k' then some v else alookup k rest

/-- One shot record (a row of the `shots` table / one pbpstats result).
Only the fields consumed by the scoring engine are modelled; nullable
columns are `Option`. -/
structure Shot where
  shot_type : Option String := none
  shot_distance : Option ℚ := none
  x : Option ℚ := none
  period : ℤ := 1
  shot_time : Option ℚ := none
  score_margin : Option ℚ := none
  shot_quality : Option ℚ := none
  made : Bool := false
  opponent : String := ""

/-- Embeds `get_zone` of `AQR_CLI_DB.py` (lines 35-66).  The function
executes `st = shot.get("shot_type")` and then `return st` on line 38,
so the TYPE_MAP dictionary and the distance fallback below that line are
unreachable and the raw `shot_type` value (possibly `None`) is returned
as the zone. -/
def getZoneDB (s : Shot) : Option String :=
  s.shot_type

/-- The TYPE_MAP dictionary shared by `AQR_CLI_DB.get_zone` (dead code)
and `AQR_COMMAND_LINE.get_zone` (live code). -/
def TYPE_MAP : List (String × String) :=
  [("AtRim", "AtRim"),
   ("ShortMidRange", "ShortMidRange"),
   ("LongMidRange", "LongMidRange"),
   ("Corner3", "Corner3"),
   ("Arc3", "Arc3"),
   ("AboveBreak3", "Arc3")]

/-- Python `st in TYPE_MAP` followed by `TYPE_MAP[st]`: `None` is not a
key of the dictionary. -/
def typeMapZone : Option String → Option String
  | none => none
  | some l => alookup l TYPE_MAP

/-- Embeds `get_zone` of `AQR_COMMAND_LINE.py` (lines 18-47): label-first
classification with a distance/coordinate fallback. -/
def getZoneCLI (s : Shot) : String :=
  match typeMapZone s.shot_type with
  | some z => z
  | none =>
    match s.shot_distance with
    | none => "LongMidRange"
    | some dist =>
      if dist ≤ 4.5 then "AtRim"
      else if dist ≤ 14 then "ShortMidRange"
      else if dist ≥ 22 then
        if (match s.x with
            | some xv => decide (|xv| > 22)
            | none => false) && decide (dist ≤ 22.5)
        then "Corner3"
        else "Arc3"
      else "LongMidRange"

/-- ZONE_PRIORS of `AQR_CLI_DB.py` (lines 135-141). -/
def ZONE_PRIORS : List (String × ℚ) :=
  [("AtRim", 0.665),
   ("ShortMidRange", 0.442),
   ("LongMidRange", 0.413),
   ("Arc3", 0.351),
   ("Corner3", 0.388)]

/-- Loop body of `compute_shooter_skill` of `AQR_CLI_DB.py` (lines
157-174) for one `(zone, prior)` entry: attempts and makes are tallied
per zone key produced by `getZoneDB`; `total_att` is the sum of all
attempt counts, i.e. the number of shots; Python computes
`share = att / total_att if total_att else 0`; the `min · 1.10` cap is
the separate capping loop at lines 173-174. -/
def skillValue (shots : List Shot) (m : ℚ) (zp : String × ℚ) : ℚ :=
  let totalAtt : ℕ := shots.length
  let att : ℕ := (shots.filter (fun s => decide (getZoneDB s = some zp.1))).length
  let mk : ℕ :=
    (shots.filter (fun s => decide (getZoneDB s = some zp.1) && s.made)).length
  let smoothed_fg := ((mk : ℚ) + m * zp.2) / ((att : ℚ) + m)
  let base_skill := smoothed_fg / zp.2
  let share : ℚ := if totalAtt = 0 then 0 else (att : ℚ) / (totalAtt : ℚ)
  let v := if share ≥ 0.05 then base_skill
           else 0.5 + (share / 0.05) * (base_skill - 0.5)
  min v 1.10

/-- Embeds `compute_shooter_skill` of `AQR_CLI_DB.py` (lines 144-176):
one skill entry per `ZONE_PRIORS` key. -/
def computeShooterSkill (shots : List Shot) (m : ℚ) : List (String × ℚ) :=
  ZONE_PRIORS.map (fun zp => (zp.1, skillValue shots m zp))

/-- LEAGUE_AVG_SQ of `AQR_CLI_DB.py` (lines 198-204). -/
def LEAGUE_AVG_SQ : List (String × ℚ) :=
  [("AtRim", 0.665),
   ("ShortMidRange", 0.442),
   ("LongMidRange", 0.413),
   ("Arc3", 0.351),
   ("Corner3", 0.388)]

/-- Embeds `get_creation_boost` of `AQR_CLI_DB.py` (lines 207-215).
`LEAGUE_AVG_SQ[zone]` raises KeyError when the zone (the raw shot_type,
see `getZoneDB`) is not one of the five keys or is `None`; a `None`
shot_quality raises TypeError at the division.  Both are `none` here. -/
def getCreationBoost (s : Shot) : Option ℚ :=
  match getZoneDB s with
  | none => none
  | some zone =>
    match alookup zone LEAGUE_AVG_SQ with
    | none => none
    | some baseline =>
      match s.shot_quality with
      | none => none
      | some sq => some (min (0.5 + 0.5 * (sq / baseline)) 1.25)

/-- Embeds `get_defense_factor` of `AQR_CLI_DB.py` (lines 228-232) and
`AQR.py` (lines 153-157), with the REL_DEF table passed explicitly. -/
def getDefenseFactor (tbl : List ((String × String) × ℚ))
    (season opponent : String) (league_avg : ℚ) : ℚ :=
  let rel := (alookup (season, opponent) tbl).getD 0
  let opp_rating := league_avg + rel
  let diff := league_avg - opp_rating
  1.0 + diff / 100.0

/-- Embeds `get_clutch_factor` of `AQR_CLI_DB.py` (lines 235-252).
Python `shot["shot_time"] or 720` replaces both `None` and `0` (falsy)
by 720; `shot["score_margin"] or 0` yields 0 for both `None` and `0`. -/
def getClutchFactor (s : Shot) : ℚ :=
  let p := s.period
  let t : ℚ := match s.shot_time with
    | none => 720
    | some v => if v = 0 then 720 else v
  let mrg : ℚ := s.score_margin.getD 0
  if 4 ≤ p ∧ t ≤ 5 ∧ |mrg| ≤ 3 then 1.2
  else if 4 ≤ p ∧ t ≤ 10 ∧ |mrg| ≤ 3 then 1.15
  else if 4 ≤ p ∧ t ≤ 20 ∧ |mrg| ≤ 4 then 1
  else if 4 ≤ p ∧ t ≤ 60 ∧ |mrg| ≤ 6 then 1.05
  else if 4 ≤ p ∧ t ≤ 120 ∧ |mrg| ≤ 8 then 1.025
  else 1

/-- Bool test that `pfx` is a prefix of the second list (helper for the
Python substring operator). -/
def strHasPfx : List Char → List Char → Bool
  | [], _ => true
  | _ :: _, [] => false
  | a :: as, b :: bs => a == b && strHasPfx as bs

/-- Bool test that `sub` occurs as a contiguous sublist (helper). -/
def strHasSub (sub : List Char) : List Char → Bool
  | [] => sub.isEmpty
  | b :: bs => strHasPfx sub (b :: bs) || strHasSub sub bs

/-- Python string containment `sub in s` (substring test). -/
def pyInStr (sub s : String) : Bool :=
  strHasSub sub.data s.data

/-- Embeds `get_distance_factor` of `AQR_CLI_DB.py` (lines 255-270).
The source tests `zone == "AtRim"` then `zone in "ShortMidRange"` — a
substring test, not membership; with `zone` equal to `None` (possible,
see `getZoneDB`) the `in` test raises TypeError, hence `none`. -/
def getDistanceFactor (s : Shot) : Option ℚ :=
  match getZoneDB s with
  | none => none
  | some zone =>
    if zone = "AtRim" then some 0.99
    else if pyInStr zone ("ShortMidRange") then some 0.99
    else if pyInStr zone ("LongMidRange") then some 0.97
    else if zone = "Arc3" ∨ zone = "Corner3" then some 1
    else some 1.0

/-- Python `skills.get(zone, 1.0)` inside `compute_AQR_for_shot_raw`:
the skill multiplier of the shot's zone, defaulting to 1.0 when the
zone (or a `None` zone) is not a key of the profile. -/
def skillTerm (s : Shot) (skills : List (String × ℚ)) : ℚ :=
  match getZoneDB s with
  | none => 1
  | some z => (alookup z skills).getD 1

/-- Embeds `compute_AQR_for_shot_raw` of `AQR_CLI_DB.py` (lines 272-285):
the product of the five factors; `league_avg` keeps its default 113.
An exception from the creation or distance factor propagates (`none`). -/
def computeAQRForShotRaw (s : Shot) (skills : List (String × ℚ))
    (tbl : List ((String × String) × ℚ)) (season : String) : Option ℚ :=
  match getCreationBoost s with
  | none => none
  | some creation =>
    match getDistanceFactor s with
    | none => none
    | some distance =>
      some (creation * skillTerm s skills *
            getDefenseFactor tbl season s.opponent 113 *
            getClutchFactor s * distance)

/-- Embeds `shrink_aqr` of `AQR_CLI_DB.py` (lines 321-334). -/
def shrinkAqr (mean_aqr n league_avg m : ℚ) : ℚ :=
  (n / (n + m)) * mean_aqr + (m / (n + m)) * league_avg

/-- Python `sorted` on numbers (a stable sort; on rationals any sort
respecting `≤` produces the same list of values). -/
def pysorted (l : List ℚ) : List ℚ :=
  l.insertionSort (· ≤ ·)

/-- Python `statistics.mean`: exact arithmetic mean; raises on an empty
list (`none`). -/
def pymean (l : List ℚ) : Option ℚ :=
  if l.length = 0 then none else some (l.sum / (l.length : ℚ))

/-- Square of Python `statistics.stdev` (the exact sample variance).
`statistics.stdev` raises on fewer than two data points (`none`); its
value is the square root of this rational, kept squared here so the
model stays in exact arithmetic.  The raising condition is identical. -/
def pystdevSq (l : List ℚ) : Option ℚ :=
  if l.length < 2 then none
  else
    let mu := l.sum / (l.length : ℚ)
    some ((l.map (fun x => (x - mu) ^ 2)).sum / ((l.length : ℚ) - 1))

/-- Python `min` on a list of numbers: raises on an empty list. -/
def pymin (l : List ℚ) : Option ℚ :=
  match l with
  | [] => none
  | x :: xs => some (xs.foldl min x)

/-- Python `max` on a list of numbers: raises on an empty list. -/
def pymax (l : List ℚ) : Option ℚ :=
  match l with
  | [] => none
  | x :: xs => some (xs.foldl max x)

/-- Python `statistics.median`: middle element of the sorted data for
odd length, average of the two middle elements for even length; raises
on an empty list. -/
def pymedian (l : List ℚ) : Option ℚ :=
  let s := pysorted l
  let n := s.length
  if n = 0 then none
  else if n % 2 = 1 then some (s.getD (n / 2) 0)
  else some ((s.getD (n / 2 - 1) 0 + s.getD (n / 2) 0) / 2)

/-- Loop body of Python `statistics.quantiles(data, n)` (default
exclusive method) for loop index `i = k + 1` over sorted data: the cut
point `(data[j-1] * (n - delta) + data[j] * delta) / n` where
`j = clamp(i*(ld+1) // n, 1, ld-1)` and `delta = i*(ld+1) - j*n`.
The clamp keeps both indices inside the list, so the `getD` defaults
are never consulted. -/
def quantilePoint (data : List ℚ) (n : ℕ) (k : ℕ) : ℚ :=
  let ld := data.length
  let i := k + 1
  let mm := ld + 1
  let j0 : ℕ := i * mm / n
  let j : ℕ := if j0 < 1 then 1 else if ld - 1 < j0 then ld - 1 else j0
  let delta : ℤ := (i : ℤ) * mm - (j : ℤ) * n
  (data.getD (j - 1) 0 * ((n : ℚ) - (delta : ℚ)) +
   data.getD j 0 * (delta : ℚ)) / (n : ℚ)

/-- Python `statistics.quantiles(data, n)` with the default exclusive
method: sorts the data, raises for `n < 1` or fewer than two points
(`none`), and returns the `n - 1` cut points. -/
def pyquantiles (l : List ℚ) (n : ℕ) : Option (List ℚ) :=
  if n < 1 then none
  else if (pysorted l).length < 2 then none
  else some ((List.range (n - 1)).map (quantilePoint (pysorted l) n))

/-- The statistics dictionary built by `compute_aqr_statistics`
(`AQR_CLI_DB.py` lines 366-379).  `stdevSq` is the square of the stored
`stdev` entry (see `pystdevSq`). -/
structure AqrStats where
  mean : ℚ
  stdevSq : ℚ
  min : ℚ
  max : ℚ
  median : ℚ
  p5 : ℚ
  p10 : ℚ
  p25 : ℚ
  p75 : ℚ
  p90 : ℚ
  p95 : ℚ
  all_values : List ℚ

/-- Embeds the statistics computation of `compute_aqr_statistics`
(`AQR_CLI_DB.py` lines 337-395) on an already-computed list of raw AQR
values (the fetching/caching around it is I/O plumbing).  Any raising
call — `statistics.mean` on an empty list, `statistics.stdev` or
`statistics.quantiles` on fewer than two values, or an out-of-range
index into a quantile list — makes the whole call raise (`none`). -/
def computeAqrStatistics (vals : List ℚ) : Option AqrStats :=
  (pymean vals).bind fun mean =>
  (pystdevSq vals).bind fun sdsq =>
  (pymin vals).bind fun mn =>
  (pymax vals).bind fun mx =>
  (pymedian vals).bind fun med =>
  (pyquantiles vals 20).bind fun q20 =>
  (pyquantiles vals 10).bind fun q10 =>
  (pyquantiles vals 4).bind fun q4 =>
  (q20.get? 0).bind fun p5 =>
  (q10.get? 0).bind fun p10 =>
  (q4.get? 0).bind fun p25 =>
  (q4.get? 2).bind fun p75 =>
  (q10.get? 8).bind fun p90 =>
  (q20.get? 18).bind fun p95 =>
  some ⟨mean, sdsq, mn, mx, med, p5, p10, p25, p75, p90, p95, pysorted vals⟩

/-- Round-half-even on rationals (the rounding rule of Python's `round`
on a value that is exactly representable): nearest integer, ties going
to the even neighbour. -/
def rhalfEven (q : ℚ) : ℤ :=
  if q - ⌊q⌋ = 1 / 2 then (if Even ⌊q⌋ then ⌊q⌋ else ⌊q⌋ + 1)
  else ⌊q + 1 / 2⌋

/-- Python `round(x, 1)` in exact arithmetic: round-half-even on
tenths. -/
def pythonRound1 (q : ℚ) : ℚ :=
  ((rhalfEven (10 * q) : ℤ) : ℚ) / 10

/-- Embeds `normalize_aqr` of `AQR_CLI_DB.py` (lines 398-416) with the
stored `all_values` list of the season's statistics passed explicitly:
percentile rank of `raw` (count of stored values strictly below it over
the total count) rescaled to 1-100 and rounded to one decimal. -/
def normalizeAqr (allValues : List ℚ) (raw : ℚ) : ℚ :=
  let rank : ℕ := (allValues.filter (fun x => decide (x < raw))).length
  pythonRound1 ((rank : ℚ) / (allValues.length : ℚ) * 99 + 1)

/-- C1: on a shot labelled `AboveBreak3`, `get_zone` of `AQR_CLI_DB.py`
returns the raw label `AboveBreak3` — not `Arc3` as the claim states —
because the premature `return st` on line 38 bypasses the TYPE_MAP;
the live classifier of `AQR_COMMAND_LINE.py` (identical to the
unreachable code) does return `Arc3` on the same shot. -/
theorem getZoneDB_aboveBreak3 :
    getZoneDB { shot_type := some ("AboveBreak3"), shot_distance := some 25, x := some 0 } =
      some ("AboveBreak3") ∧
    getZoneDB { shot_type := some ("AboveBreak3"), shot_distance := some 25, x := some 0 } ≠
      some ("Arc3") ∧
    getZoneCLI { shot_type := some ("AboveBreak3"), shot_distance := some 25, x := some 0 } =
      "Arc3" :=
  ⟨rfl, by decide, by decide⟩

/-- Sorting preserves length. -/
lemma pysorted_length (l : List ℚ) : (pysorted l).length = l.length :=
  (List.perm_insertionSort _ l).length_eq

/-- On at least two data points, `pyquantiles` succeeds and returns
exactly `n - 1` cut points. -/
lemma pyquantiles_some (l : List ℚ) (n : ℕ) (hn : 1 ≤ n) (h2 : 2 ≤ l.length) :
    ∃ q, pyquantiles l n = some q ∧ q.length = n - 1 := by
  simp only [pyquantiles, pysorted_length]
  rw [if_neg (by omega), if_neg (by omega)]
  exact ⟨_, rfl, by simp⟩

/-- C9: the statistics builder raises (returns no result) on fewer than
two raw values, and on at least two values succeeds, with the mean
equal to the exact arithmetic mean and the stored value list a sorted
permutation of the input list (every percentile index into the
quantile lists is then in range). -/
theorem computeAqrStatistics_spec (vals : List ℚ) :
    (vals.length < 2 → computeAqrStatistics vals = none) ∧
    (2 ≤ vals.length → ∃ s, computeAqrStatistics vals = some s ∧
      s.mean = vals.sum / (vals.length : ℚ) ∧
      s.all_values.Sorted (· ≤ ·) ∧ vals.Perm s.all_values) := by
  constructor
  · intro hlt
    have hvar : pystdevSq vals = none := by
      simp only [pystdevSq]
      rw [if_pos hlt]
    cases hm : pymean vals <;>
      simp only [computeAqrStatistics, hm, hvar, Option.none_bind, Option.some_bind]
  · intro h2
    have hm : pymean vals = some (vals.sum / (vals.length : ℚ)) := by
      simp only [pymean]
      rw [if_neg (by omega)]
    obtain ⟨v, hv⟩ : ∃ v, pystdevSq vals = some v := by
      simp only [pystdevSq]
      rw [if_neg (by omega)]
      exact ⟨_, rfl⟩
    obtain ⟨x, xs, hcons⟩ : ∃ x xs, vals = x :: xs := by
      cases vals with
      | nil => simp at h2
      | cons a as => exact ⟨a, as, rfl⟩
    obtain ⟨mn, hmn⟩ : ∃ mn, pymin vals = some mn := by
      rw [hcons]
      exact ⟨_, rfl⟩
    obtain ⟨mx, hmx⟩ : ∃ mx, pymax vals = some mx := by
      rw [hcons]
      exact ⟨_, rfl⟩
    obtain ⟨md, hmd⟩ : ∃ md, pymedian vals = some md := by
      simp only [pymedian, pysorted_length]
      split_ifs with hz hodd
      · exact absurd hz (by omega)
      · exact ⟨_, rfl⟩
      · exact ⟨_, rfl⟩
    obtain ⟨q20, hq20, hl20⟩ := pyquantiles_some vals 20 (by norm_num) h2
    obtain ⟨q10, hq10, hl10⟩ := pyquantiles_some vals 10 (by norm_num) h2
    obtain ⟨q4, hq4, hl4⟩ := pyquantiles_some vals 4 (by norm_num) h2
    obtain ⟨a5, ha5⟩ : ∃ a, q20.get? 0 = some a := ⟨_, List.get?_eq_get (by omega)⟩
    obtain ⟨a10, ha10⟩ : ∃ a, q10.get? 0 = some a := ⟨_, List.get?_eq_get (by omega)⟩
    obtain ⟨a25, ha25⟩ : ∃ a, q4.get? 0 = some a := ⟨_, List.get?_eq_get (by omega)⟩
    obtain ⟨a75, ha75⟩ : ∃ a, q4.get? 2 = some a := ⟨_, List.get?_eq_get (by omega)⟩
    obtain ⟨a90, ha90⟩ : ∃ a, q10.get? 8 = some a := ⟨_, List.get?_eq_get (by omega)⟩
    obtain ⟨a95, ha95⟩ : ∃ a, q20.get? 18 = some a := ⟨_, List.get?_eq_get (by omega)⟩
    refine ⟨⟨vals.sum / (vals.length : ℚ), v, mn, mx, md,
      a5, a10, a25, a75, a90, a95, pysorted vals⟩, ?_, rfl, ?_, ?_⟩
    · simp only [computeAqrStatistics, hm, hv, hmn, hmx, hmd, hq20, hq10, hq4,
        ha5, ha10, ha25, ha75, ha90, ha95, Option.some_bind]
    · exact List.sorted_insertionSort _ vals
    · exact (List.perm_insertionSort _ vals).symm

/-- Witness for C9: a single value makes the builder raise; the
two-value list `[3, 1]` succeeds with mean 2 and sorted stored values
permuting the input. -/
theorem computeAqrStatistics_spec_witness :
    computeAqrStatistics [5] = none ∧
    (∃ s, computeAqrStatistics [(3 : ℚ), 1] = some s ∧
      s.mean = ([(3 : ℚ), 1].sum / (([(3 : ℚ), 1].length : ℕ) : ℚ)) ∧
      s.all_values.Sorted (· ≤ ·) ∧ [(3 : ℚ), 1].Perm s.all_values) :=
  ⟨(computeAqrStatistics_spec [5]).1 (by norm_num),
   (computeAqrStatistics_spec [(3 : ℚ), 1]).2 (by norm_num)⟩

/-- Round-half-even never rounds below the floor. -/
lemma rhalfEven_ge_floor (q : ℚ) : ⌊q⌋ ≤ rhalfEven q := by
  unfold rhalfEven
  split_ifs with h1 h2
  · exact le_refl _
  · omega
  · exact Int.floor_mono (by linarith)

/-- Round-half-even never rounds above the ceiling. -/
lemma rhalfEven_le_floor_add_one (q : ℚ) : rhalfEven q ≤ ⌊q⌋ + 1 := by
  unfold rhalfEven
  split_ifs with h1 h2
  · omega
  · omega
  · have hlt : ⌊q + 1 / 2⌋ < ⌊q⌋ + 2 := by
      rw [Int.floor_lt]
      have := Int.lt_floor_add_one q
      push_cast
      linarith
    omega

/-- Round-half-even is monotone. -/
lemma rhalfEven_mono {a b : ℚ} (hab : a ≤ b) : rhalfEven a ≤ rhalfEven b := by
  rcases lt_or_le ⌊a⌋ ⌊b⌋ with hf | hf
  · calc rhalfEven a ≤ ⌊a⌋ + 1 := rhalfEven_le_floor_add_one a
      _ ≤ ⌊b⌋ := by omega
      _ ≤ rhalfEven b := rhalfEven_ge_floor b
  · have hfe : ⌊a⌋ = ⌊b⌋ := le_antisymm (Int.floor_mono hab) hf
    unfold rhalfEven
    rw [hfe]
    by_cases h1 : a - (⌊b⌋ : ℚ) = 1 / 2 <;> by_cases h2 : b - (⌊b⌋ : ℚ) = 1 / 2
    · rw [if_pos h1, if_pos h2]
    · rw [if_pos h1, if_neg h2]
      have hbf : (1 : ℚ) / 2 < b - ⌊b⌋ :=
        lt_of_le_of_ne (by linarith) (fun he => h2 he.symm)
      have hup : ⌊b⌋ + 1 ≤ ⌊b + 1 / 2⌋ := by
        rw [Int.le_floor]
        push_cast
        linarith
      split_ifs <;> omega
    · rw [if_neg h1, if_pos h2]
      have haf : a - (⌊b⌋ : ℚ) < 1 / 2 := lt_of_le_of_ne (by linarith) h1
      have hdn : ⌊a + 1 / 2⌋ < ⌊b⌋ + 1 := by
        rw [Int.floor_lt]
        push_cast
        linarith
      split_ifs <;> omega
    · rw [if_neg h1, if_neg h2]
      exact Int.floor_mono (by linarith)

/-- The count of stored values strictly below the raw input is monotone
in the raw input. -/
lemma length_filter_lt_mono (l : List ℚ) {r1 r2 : ℚ} (h : r1 ≤ r2) :
    (l.filter (fun x => decide (x < r1))).length ≤
      (l.filter (fun x => decide (x < r2))).length := by
  apply List.Sublist.length_le
  apply List.monotone_filter_right
  intro a ha
  simp only [decide_eq_true_eq] at ha ⊢
  linarith

/-- C8: for a fixed non-empty stored value list, `normalize_aqr` is
monotonically non-decreasing in its raw input — through the rank count,
the affine rescale and the final half-even rounding. -/
theorem normalizeAqr_mono (vals : List ℚ) (r1 r2 : ℚ) (hne : vals ≠ [])
    (h : r1 ≤ r2) : normalizeAqr vals r1 ≤ normalizeAqr vals r2 := by
  have hlen : (0 : ℚ) < (vals.length : ℚ) := by
    exact_mod_cast List.length_pos.mpr hne
  have hrank : ((vals.filter (fun x => decide (x < r1))).length : ℚ) ≤
      ((vals.filter (fun x => decide (x < r2))).length : ℚ) := by
    exact_mod_cast length_filter_lt_mono vals h
  have harg : ((vals.filter (fun x => decide (x < r1))).length : ℚ) /
        (vals.length : ℚ) * 99 + 1 ≤
      ((vals.filter (fun x => decide (x < r2))).length : ℚ) /
        (vals.length : ℚ) * 99 + 1 := by
    gcongr
  simp only [normalizeAqr, pythonRound1]
  gcongr
  exact rhalfEven_mono (by linarith)

/-- Witness for C8 on the population `[1, 1, 1, 2]` at raw inputs 1 and
2. -/
theorem normalizeAqr_mono_witness :
    normalizeAqr [1, 1, 1, 2] 1 ≤ normalizeAqr [1, 1, 1, 2] 2 :=
  normalizeAqr_mono [1, 1, 1, 2] 1 2 (List.cons_ne_nil _ _) (by norm_num)

/-- Evaluation helper: the normalizer on population `[1, 1, 1, 2]` at
raw value 2 (rank 3 of 4, `3/4 * 99 + 1 = 75.25`, rounded half-to-even
to 75.2). -/
lemma normAqr_pop_at_two : normalizeAqr [1, 1, 1, 2] 2 = 75.2 := by
  have h : (List.filter (fun x => decide (x < (2 : ℚ))) [1, 1, 1, 2]).length = 3 := by
    norm_num [List.filter]
  simp only [normalizeAqr, h]
  unfold pythonRound1 rhalfEven
  norm_num [Int.floor_eq_iff, Int.even_iff]

/-- Evaluation helper: the normalizer on population `[1, 1, 1, 2]` at
raw value 1 (rank 0 of 4, the minimum rank 1). -/
lemma normAqr_pop_at_one : normalizeAqr [1, 1, 1, 2] 1 = 1 := by
  have h : (List.filter (fun x => decide (x < (1 : ℚ))) [1, 1, 1, 2]).length = 0 := by
    norm_num [List.filter]
  simp only [normalizeAqr, h]
  unfold pythonRound1 rhalfEven
  norm_num [Int.floor_eq_iff, Int.even_iff]

/-- C2 counterexample: on the population `[1, 1, 1, 2]` the normalizer
maps `2.0` to `75.2` (three of four stored values are strictly smaller:
`3/4 * 99 + 1 = 75.25`, rounded half-to-even to one decimal), not to
the maximum rank `100.0` the claim states. -/
theorem normalizeAqr_two_ne_100 : normalizeAqr [1, 1, 1, 2] 2 ≠ 100 := by
  rw [normAqr_pop_at_two]
  norm_num

/-- C2 amended: on the population `[1, 1, 1, 2]`, `normalize(2.0)`
returns `75.2` and `normalize(1.0)` returns the minimum rank `1.0`. -/
theorem normalizeAqr_pop_example :
    normalizeAqr [1, 1, 1, 2] 2 = 75.2 ∧ normalizeAqr [1, 1, 1, 2] 1 = 1 :=
  ⟨normAqr_pop_at_two, normAqr_pop_at_one⟩

/-- C4: evaluation of `get_clutch_factor` of `AQR_CLI_DB.py` at a shot
matching the third tier (`t ≤ 20`, `|margin| ≤ 4`): the code returns
`1.` there, which is strictly smaller than the `1.05` granted by the
looser fourth tier (`t ≤ 60`, `|margin| ≤ 6`) — a shot satisfying the
tighter tier receives a smaller bonus than the looser tier would
grant, contradicting the claimed tight-to-loose, high-to-low order. -/
theorem clutch_tier_inversion :
    getClutchFactor { period := 4, shot_time := some 20, score_margin := some 4 } = 1 ∧
    getClutchFactor { period := 4, shot_time := some 60, score_margin := some 4 } = 1.05 ∧
    getClutchFactor { period := 4, shot_time := some 20, score_margin := some 4 } <
      getClutchFactor { period := 4, shot_time := some 60, score_margin := some 4 } := by
  refine ⟨?_, ?_, ?_⟩ <;> norm_num [getClutchFactor, abs_le]

/-- Reduction of the boolean corner-3 test of `getZoneCLI` to its
propositional form. -/
lemma cornerCond_iff (s : Shot) (d : ℚ) :
    (((match s.x with
       | some xv => decide (|xv| > 22)
       | none => false) && decide (d ≤ 22.5)) = true) ↔
      ((∃ xv, s.x = some xv ∧ 22 < |xv|) ∧ d ≤ 22.5) := by
  cases hx : s.x with
  | none => simp
  | some xv => simp [gt_iff_lt]

/-- C3: when the shot-type label is unknown to TYPE_MAP, the classifier
of `AQR_COMMAND_LINE.py` falls back to the distance heuristics exactly
as claimed: distance at most 4.5 gives AtRim, at most 14 gives
ShortMidRange, at least 22 gives Corner3 precisely when the lateral
coordinate exceeds 22 in magnitude and the distance is at most 22.5 and
Arc3 otherwise, a missing distance gives LongMidRange, and any other
distance gives LongMidRange. -/
theorem getZoneCLI_fallback (s : Shot) (hu : typeMapZone s.shot_type = none) :
    (s.shot_distance = none → getZoneCLI s = "LongMidRange") ∧
    (∀ d : ℚ, s.shot_distance = some d →
      (d ≤ 4.5 → getZoneCLI s = "AtRim") ∧
      (4.5 < d → d ≤ 14 → getZoneCLI s = "ShortMidRange") ∧
      (22 ≤ d →
        ((∃ xv, s.x = some xv ∧ 22 < |xv|) ∧ d ≤ 22.5 → getZoneCLI s = "Corner3") ∧
        (¬((∃ xv, s.x = some xv ∧ 22 < |xv|) ∧ d ≤ 22.5) → getZoneCLI s = "Arc3")) ∧
      (14 < d → d < 22 → getZoneCLI s = "LongMidRange")) := by
  constructor
  · intro hd
    simp only [getZoneCLI, hu, hd]
  · intro d hd
    have hz : getZoneCLI s =
        (if d ≤ 4.5 then "AtRim"
         else if d ≤ 14 then "ShortMidRange"
         else if d ≥ 22 then
           (if (match s.x with
                | some xv => decide (|xv| > 22)
                | none => false) && decide (d ≤ 22.5)
            then "Corner3" else "Arc3")
         else "LongMidRange") := by
      simp only [getZoneCLI, hu, hd]
    refine ⟨?_, ?_, ?_, ?_⟩
    · intro h1
      rw [hz, if_pos h1]
    · intro h1 h2
      rw [hz, if_neg (by linarith), if_pos h2]
    · intro h22
      have hn1 : ¬ d ≤ 4.5 := by linarith
      have hn2 : ¬ d ≤ 14 := by linarith
      constructor
      · intro hcorner
        rw [hz, if_neg hn1, if_neg hn2, if_pos (by linarith : d ≥ 22),
          if_pos ((cornerCond_iff s d).mpr hcorner)]
      · intro hnot
        rw [hz, if_neg hn1, if_neg hn2, if_pos (by linarith : d ≥ 22),
          if_neg (fun hc => hnot ((cornerCond_iff s d).mp hc))]
    · intro h1 h2
      rw [hz, if_neg (by linarith), if_neg (by linarith),
        if_neg (by simp only [ge_iff_le, not_le]; linarith)]

/-- Witness for C3 on a shot with the unrecognized label Floater and
distance 3 (AtRim branch of the fallback). -/
theorem getZoneCLI_fallback_witness :
    typeMapZone (some ("Floater")) = none ∧
    getZoneCLI { shot_type := some ("Floater"), shot_distance := some 3 } = "AtRim" := by
  have h := getZoneCLI_fallback
    { shot_type := some ("Floater"), shot_distance := some 3 } (by decide)
  exact ⟨by decide, (h.2 3 rfl).1 (by norm_num)⟩

/-- C7: `shrink_aqr` is the identity when the league average equals the
mean being shrunk (for positive counts and regression weight), and
collapses to the league average when the sample count is zero. -/
theorem shrinkAqr_identities (x n m leagueAvg mean : ℚ) :
    (0 < n → 0 < m → shrinkAqr x n x m = x) ∧
    (0 < m → shrinkAqr mean 0 leagueAvg m = leagueAvg) := by
  constructor
  · intro hn hm
    have h : n + m ≠ 0 := by positivity
    unfold shrinkAqr
    field_simp
    ring
  · intro hm
    unfold shrinkAqr
    have h : m ≠ 0 := hm.ne'
    field_simp

/-- Witness for C7 at `x = 3`, `n = 1`, `m = 250`, `leagueAvg = 4`,
`mean = 7`. -/
theorem shrinkAqr_identities_witness :
    shrinkAqr 3 1 3 250 = 3 ∧ shrinkAqr 7 0 4 250 = 4 :=
  ⟨(shrinkAqr_identities 3 1 250 4 7).1 (by norm_num) (by norm_num),
   (shrinkAqr_identities 3 1 250 4 7).2 (by norm_num)⟩

/-- Inversion for baseline lookups: a successful `LEAGUE_AVG_SQ` lookup
pins the zone to one of the five known zone names. -/
lemma LEAGUE_AVG_SQ_keys {z : String} {b : ℚ} (h : alookup z LEAGUE_AVG_SQ = some b) :
    z = "AtRim" ∨ z = "ShortMidRange" ∨ z = "LongMidRange" ∨
      z = "Arc3" ∨ z = "Corner3" := by
  simp only [LEAGUE_AVG_SQ, alookup] at h
  split_ifs at h with h1 h2 h3 h4 h5 <;> tauto

/-- On any zone with a baseline, the distance factor is defined (does
not raise). -/
lemma getDistanceFactor_of_baseline {s : Shot} {z : String} {b : ℚ}
    (hz : getZoneDB s = some z) (hb : alookup z LEAGUE_AVG_SQ = some b) :
    ∃ d, getDistanceFactor s = some d := by
  rcases LEAGUE_AVG_SQ_keys hb with h | h | h | h | h <;> subst h <;>
    exact ⟨_, by simp only [getDistanceFactor, hz]; rfl⟩

/-- C5: whenever the creation factor is defined (the shot has a quality
value and its zone has a baseline), the raw AQR is defined and equals
exactly the product of the five factors, where the skill term defaults
to 1 when the shot's zone is absent from the profile; and when all five
factors equal 1 the result is exactly 1. -/
theorem computeAQR_product (s : Shot) (skills : List (String × ℚ))
    (tbl : List ((String × String) × ℚ)) (season : String) (c : ℚ)
    (hc : getCreationBoost s = some c) :
    ∃ d, getDistanceFactor s = some d ∧
      computeAQRForShotRaw s skills tbl season =
        some (c * skillTerm s skills * getDefenseFactor tbl season s.opponent 113 *
              getClutchFactor s * d) ∧
      (∀ z, getZoneDB s = some z → alookup z skills = none → skillTerm s skills = 1) ∧
      (c = 1 → skillTerm s skills = 1 →
        getDefenseFactor tbl season s.opponent 113 = 1 → getClutchFactor s = 1 →
        d = 1 → computeAQRForShotRaw s skills tbl season = some 1) := by
  have hzb : ∃ z b, getZoneDB s = some z ∧ alookup z LEAGUE_AVG_SQ = some b := by
    cases hz : getZoneDB s with
    | none =>
      simp only [getCreationBoost, hz] at hc
      exact Option.noConfusion hc
    | some z =>
      cases hb : alookup z LEAGUE_AVG_SQ with
      | none =>
        simp only [getCreationBoost, hz, hb] at hc
        exact Option.noConfusion hc
      | some b => exact ⟨z, b, rfl, hb⟩
  obtain ⟨z, b, hz, hb⟩ := hzb
  obtain ⟨d, hd⟩ := getDistanceFactor_of_baseline hz hb
  refine ⟨d, hd, ?_, ?_, ?_⟩
  · simp only [computeAQRForShotRaw, hc, hd]
  · intro z' hz' hnone
    simp only [skillTerm, hz', hnone, Option.getD_none]
  · intro h1 h2 h3 h4 h5
    simp only [computeAQRForShotRaw, hc, hd, h1, h2, h3, h4, h5]
    norm_num

/-- Witness for C5: an Arc3 shot with quality exactly the Arc3
baseline, an empty skill profile, an empty defense table and a
second-period context multiplies five unit factors to exactly 1. -/
theorem computeAQR_product_witness :
    getCreationBoost
      { shot_type := some ("Arc3"), shot_quality := some 0.351,
        period := 2, opponent := "BOS" } = some 1 ∧
    computeAQRForShotRaw
      { shot_type := some ("Arc3"), shot_quality := some 0.351,
        period := 2, opponent := "BOS" } [] [] ("2024-25") = some 1 := by
  have halk : alookup ("Arc3") LEAGUE_AVG_SQ = some 0.351 := rfl
  have hc : getCreationBoost
      { shot_type := some ("Arc3"), shot_quality := some 0.351,
        period := 2, opponent := "BOS" } = some 1 := by
    simp only [getCreationBoost, getZoneDB, halk]
    norm_num [min_def]
  obtain ⟨d, hd, _, _, hone⟩ := computeAQR_product
    { shot_type := some ("Arc3"), shot_quality := some 0.351,
      period := 2, opponent := "BOS" } [] [] ("2024-25") 1 hc
  have hd1 : d = 1 := by
    have h1 : getDistanceFactor
        { shot_type := some ("Arc3"), shot_quality := some 0.351,
          period := 2, opponent := "BOS" } = some 1 := rfl
    rw [h1] at hd
    exact (Option.some_inj.mp hd.symm)
  refine ⟨hc, hone rfl ?_ ?_ ?_ hd1⟩
  · rfl
  · norm_num [getDefenseFactor, alookup]
  · norm_num [getClutchFactor, abs_le]

/-- Lookup of a prior key in the skill profile returns the loop-body
value for that key (the five keys of `ZONE_PRIORS` are distinct). -/
lemma alookup_computeShooterSkill (shots : List Shot) (m : ℚ) {z : String} {prior : ℚ}
    (h : (z, prior) ∈ ZONE_PRIORS) :
    alookup z (computeShooterSkill shots m) = some (skillValue shots m (z, prior)) := by
  fin_cases h <;> rfl

/-- A zone with zero attempts gets the floor value: with `share = 0`
the interpolation `floor + (share / 0.05) * (base_skill - floor)`
collapses to the floor `0.5`, whatever the smoothed base skill is, and
the `1.10` cap keeps it unchanged.  The `total_att = 0` guard makes
this cover the empty history without dividing by zero. -/
lemma skillValue_no_attempts (shots : List Shot) (m : ℚ) (z : String) (prior : ℚ)
    (h0 : (shots.filter (fun s => decide (getZoneDB s = some z))).length = 0) :
    skillValue shots m (z, prior) = 1 / 2 := by
  simp only [skillValue, h0]
  have hshare : (if shots.length = 0 then (0 : ℚ)
      else ((0 : ℕ) : ℚ) / (shots.length : ℚ)) = 0 := by
    split_ifs <;> simp
  rw [hshare]
  rw [if_neg (by norm_num)]
  norm_num [min_def]

/-- C6: for every shooter history and every zone of `ZONE_PRIORS` in
which the history has zero attempts (in particular every zone of the
empty history), the skill profile built by `compute_shooter_skill`
assigns that zone exactly the configured floor value `0.5`. -/
theorem computeShooterSkill_zero_attempts (shots : List Shot) (m : ℚ) (z : String)
    (prior : ℚ) (_hm : 0 < m) (hz : (z, prior) ∈ ZONE_PRIORS)
    (h0 : (shots.filter (fun s => decide (getZoneDB s = some z))).length = 0) :
    alookup z (computeShooterSkill shots m) = some (1 / 2) := by
  rw [alookup_computeShooterSkill shots m hz, skillValue_no_attempts shots m z prior h0]

/-- Witness for C6: the empty history at the AtRim zone with the
default regression weight 20. -/
theorem computeShooterSkill_zero_attempts_witness :
    alookup ("AtRim") (computeShooterSkill [] 20) = some (1 / 2) :=
  computeShooterSkill_zero_attempts [] 20 ("AtRim") 0.665 (by norm_num)
    (by exact List.Mem.head _) rfl

/-- C10: the defense factor does not depend on the `league_avg`
parameter (it cancels), equals `1 - rel/100` for the stored relative
rating `rel`, and is exactly `1` when the (season, team) pair is absent
from the table. -/
theorem defenseFactor_spec (tbl : List ((String × String) × ℚ))
    (season team : String) (a b : ℚ) :
    getDefenseFactor tbl season team a = getDefenseFactor tbl season team b ∧
    getDefenseFactor tbl season team a =
      1 - (alookup (season, team) tbl).getD 0 / 100 ∧
    (alookup (season, team) tbl = none → getDefenseFactor tbl season team a = 1) := by
  refine ⟨?_, ?_, ?_⟩
  · simp only [getDefenseFactor]
    ring
  · simp only [getDefenseFactor]
    ring
  · intro h
    simp only [getDefenseFactor, h, Option.getD_none]
    ring

/-- Witness for C10 on the empty table at `league_avg` values 50 and
113. -/
theorem defenseFactor_spec_witness :
    getDefenseFactor [] ("2024-25") ("BOS") 50 =
      getDefenseFactor [] ("2024-25") ("BOS") 113 ∧
    getDefenseFactor [] ("2024-25") ("BOS") 50 = 1 := by
  obtain ⟨h1, _, h3⟩ := defenseFactor_spec [] ("2024-25") ("BOS") 50 113
  exact ⟨h1, h3 rfl⟩
